import Mathlib

/-!
Shallow embedding of `src/pull-request-core.ts`: a publish pipeline that
resolves a branch, builds a tree, pushes a commit and opens a pull request
against a remote hosting service.

The remote service (octokit endpoints, the host UI singleton `app.activeWindow`
and the ambient clock) is modelled as a `Remote` record of pure response
functions. Each translated function returns its result (`Except Err α`, where
`Except.error` models a thrown exception) together with the ordered trace of
remote calls and notifications it emitted (`List ApiCall`).
-/

namespace PullRequestCore

/-- Modelled from the spec: `FileEntry` ({path, content}) from the missing
`./types` module (`SourceFile`). -/
structure SourceFile where
  path : String
  content : String
deriving DecidableEq, Repr

/-- Modelled from the spec: author/message metadata of a changeset commit,
from the missing `./types` module (`commitMetaData`). -/
structure CommitMetaData where
  authorName : String
  authorEmail : String
  commitMessage : String
deriving DecidableEq, Repr

/-- Modelled from the spec: the changeset commit descriptor from the missing
`./types` module: a list of file entries plus commit metadata. -/
structure ChangesetCommit where
  sourceFiles : List SourceFile
  commitMetaData : CommitMetaData
deriving DecidableEq, Repr

/-- Modelled from the spec: `PullRequestSpec` from the missing `./types`
module (`PullRequest.GitHubPullRequest`). `destinationOwner` and
`destinationRepo` default to the source coordinates when absent; absence
follows the host language's truthiness, so `none` and `some ""` are both
"unset". -/
structure GitHubPullRequest where
  sourceOwner : String
  sourceRepo : String
  destinationBranch : String
  sourceBranch : String
  subject : String
  description : String
  destinationOwner : Option String
  destinationRepo : Option String
  maintainerCanModify : Bool
  draft : Bool
deriving DecidableEq, Repr

/-- Modelled from the spec: the full input descriptor
(`PullRequest.PullRequestWithChangesetCommit`). -/
structure PullRequestWithChangesetCommit where
  pullRequest : GitHubPullRequest
  changesetCommit : ChangesetCommit
deriving DecidableEq, Repr

/-- The `object` field of an octokit git-ref response (`data.object.sha`). -/
structure RefObjectInfo where
  sha : String
deriving DecidableEq, Repr

/-- An octokit git-ref response (`getRef` / `createRef` / `updateRef`). -/
structure GitRef where
  object : RefObjectInfo
deriving DecidableEq, Repr

/-- An octokit git-commit response (`getCommit` / `createCommit`). -/
structure GitCommit where
  sha : String
deriving DecidableEq, Repr

/-- An octokit git-tree response (`createTree`). -/
structure GitTree where
  sha : String
deriving DecidableEq, Repr

/-- An octokit `pulls.create` response; only `html_url` is read by the code. -/
structure PullsCreateResponse where
  html_url : String
deriving DecidableEq, Repr

/-- The notification severities of the host's notification API; the code uses
only `Success` and `Warning`. -/
inductive NotificationType where
  | Success
  | Warning
  | Info
  | Error
deriving DecidableEq, Repr

/-- A thrown value: either an octokit HTTP error carrying a `status` and a raw
payload, or a plain `new Error(msg)` (which has no `status` property). -/
inductive Err where
  | http (status : Nat) (payload : String)
  | message (msg : String)
deriving DecidableEq, Repr

/-- Reading the (possibly absent) `status` property of a thrown value. -/
def Err.status? : Err → Option Nat
  | .http s _ => some s
  | .message _ => none

/-- Abstract model of `JSON.stringify` on a thrown value: a string that
embeds the error's fields (in particular the raw payload of an HTTP error). -/
def stringify : Err → String
  | .http s p => "\x7b\"status\":" ++ toString s ++ ",\"payload\":\"" ++ p ++ "\"\x7d"
  | .message m => "\x7b\"message\":\"" ++ m ++ "\"\x7d"

/-- One element of the `tree` array of an octokit `git.createTree` request
(`Octokit.GitCreateTreeParamsTree`). -/
structure GitCreateTreeParamsTree where
  path : String
  content : String
  type : String
  mode : String
deriving DecidableEq, Repr

/-- The parameters of an octokit `pulls.create` request. -/
structure PullsCreateParams where
  owner : String
  repo : String
  title : String
  body : String
  head : String
  base : String
  maintainer_can_modify : Bool
  draft : Bool
deriving DecidableEq, Repr

/-- One observable action of a publish call: a remote API call, or a
notification shown through the host's active window. -/
inductive ApiCall where
  | getRef (owner repo ref : String)
  | createRef (owner repo ref sha : String)
  | getCommit (owner repo commit_sha : String)
  | createCommit (owner repo message tree authorName authorEmail authorDate : String)
      (parents : List String)
  | createTree (owner repo : String) (tree : List GitCreateTreeParamsTree) (base_tree : String)
  | updateRef (owner repo ref sha : String) (force : Bool)
  | pullsCreate (params : PullsCreateParams)
  | notify (message : String) (ntype : NotificationType)
deriving DecidableEq, Repr

/-- The environment of one publish call: the remote service's responses (pure
functions of the request), the host UI's active-window flag, and the clock
(`new Date().toISOString()`). -/
structure Remote where
  getRef : String → String → String → Except Err GitRef
  createRef : String → String → String → String → Except Err GitRef
  getCommit : String → String → String → Except Err GitCommit
  createCommit : String → String → String → String → String → String → String →
    List String → Except Err GitCommit
  createTree : String → String → List GitCreateTreeParamsTree → String → Except Err GitTree
  updateRef : String → String → String → String → Bool → Except Err GitRef
  pullsCreate : PullsCreateParams → Except Err PullsCreateResponse
  activeWindow : Bool
  now : String

/-- Truthiness of an optional string (`undefined` and `""` are falsy). -/
def truthy : Option String → Bool
  | none => false
  | some s => s != ""

/-- `Client.createCommitBranch`: reads the base branch's ref and creates
`refs/heads/commitBranch` pointing at its sha; returns the created ref's sha. -/
def createCommitBranch (r : Remote) (owner repo baseBranch commitBranch : String) :
    Except Err String × List ApiCall :=
  match r.getRef owner repo ("heads/" ++ baseBranch) with
  | .error e => (.error e, [.getRef owner repo ("heads/" ++ baseBranch)])
  | .ok baseBranchRef =>
    match r.createRef owner repo ("refs/heads/" ++ commitBranch) baseBranchRef.object.sha with
    | .error e =>
      (.error e,
       [.getRef owner repo ("heads/" ++ baseBranch),
        .createRef owner repo ("refs/heads/" ++ commitBranch) baseBranchRef.object.sha])
    | .ok commitBranchRef =>
      (.ok commitBranchRef.object.sha,
       [.getRef owner repo ("heads/" ++ baseBranch),
        .createRef owner repo ("refs/heads/" ++ commitBranch) baseBranchRef.object.sha])

/-- `Client.getCommitBranchSha`: returns the commit branch's tip sha if the
ref lookup succeeds; on a 404 creates it from the base branch; any other
lookup failure becomes the fixed authorization error. -/
def getCommitBranchSha (r : Remote) (owner repo baseBranch commitBranch : String) :
    Except Err String × List ApiCall :=
  match r.getRef owner repo ("heads/" ++ commitBranch) with
  | .ok d => (.ok d.object.sha, [.getRef owner repo ("heads/" ++ commitBranch)])
  | .error e =>
    if e.status? = some 404 then
      let res := createCommitBranch r owner repo baseBranch commitBranch
      (res.1, .getRef owner repo ("heads/" ++ commitBranch) :: res.2)
    else
      (.error (.message "Error looking up or creating branch. Is your GitHub token authorized?"),
       [.getRef owner repo ("heads/" ++ commitBranch)])

/-- The `tree` array submitted by `Client.createTree`: every source file as a
blob-type, mode-100644 entry with its path and content. -/
def treeEntries (sourceFiles : List SourceFile) : List GitCreateTreeParamsTree :=
  sourceFiles.map fun sf =>
    { path := sf.path, content := sf.content, type := "blob", mode := "100644" }

/-- `Client.createTree`: submits the mapped entries with
`base_tree := commitBranchSha` and returns the new tree's sha. -/
def createTree (r : Remote) (owner repo commitBranchSha : String)
    (sourceFiles : List SourceFile) : Except Err String × List ApiCall :=
  let tree := treeEntries sourceFiles
  match r.createTree owner repo tree commitBranchSha with
  | .error e => (.error e, [.createTree owner repo tree commitBranchSha])
  | .ok data => (.ok data.sha, [.createTree owner repo tree commitBranchSha])

/-- `Client.pushCommit`: re-reads the commit at `commitBranchSha`, creates a
commit of `treeSha` whose sole parent is the re-read commit's sha, and
advances `heads/commitBranch` to it with a non-force ref update. -/
def pushCommit (r : Remote) (owner repo commitBranch commitBranchSha treeSha authorName
    authorEmail commitMessage : String) : Except Err GitRef × List ApiCall :=
  match r.getCommit owner repo commitBranchSha with
  | .error e => (.error e, [.getCommit owner repo commitBranchSha])
  | .ok parentCommit =>
    match r.createCommit owner repo commitMessage treeSha authorName authorEmail r.now
        [parentCommit.sha] with
    | .error e =>
      (.error e,
       [.getCommit owner repo commitBranchSha,
        .createCommit owner repo commitMessage treeSha authorName authorEmail r.now
          [parentCommit.sha]])
    | .ok createdCommit =>
      match r.updateRef owner repo ("heads/" ++ commitBranch) createdCommit.sha false with
      | .error e =>
        (.error e,
         [.getCommit owner repo commitBranchSha,
          .createCommit owner repo commitMessage treeSha authorName authorEmail r.now
            [parentCommit.sha],
          .updateRef owner repo ("heads/" ++ commitBranch) createdCommit.sha false])
      | .ok ref =>
        (.ok ref,
         [.getCommit owner repo commitBranchSha,
          .createCommit owner repo commitMessage treeSha authorName authorEmail r.now
            [parentCommit.sha],
          .updateRef owner repo ("heads/" ++ commitBranch) createdCommit.sha false])

/-- The parameters `Client.createPullRequest` passes to `pulls.create`, after
destination defaulting: a truthy `destinationOwner` differing from
`sourceOwner` prefixes `destinationBranch` with `sourceOwner:`; otherwise the
owner defaults to `sourceOwner`; a falsy `destinationRepo` defaults to
`sourceRepo`. -/
def createParams (pr : GitHubPullRequest) : PullsCreateParams :=
  let cross := truthy pr.destinationOwner && (pr.destinationOwner.getD "" != pr.sourceOwner)
  { owner := if cross then pr.destinationOwner.getD "" else pr.sourceOwner
    repo := if truthy pr.destinationRepo then pr.destinationRepo.getD "" else pr.sourceRepo
    title := pr.subject
    body := pr.description
    head := pr.sourceBranch
    base := if cross then pr.sourceOwner ++ ":" ++ pr.destinationBranch
            else pr.destinationBranch
    maintainer_can_modify := pr.maintainerCanModify
    draft := pr.draft }

/-- The informational notification text of the already-exists path. -/
def alreadyExistsMsg : String := "PR updated with new commit (branch already exists)."

/-- `Client.createPullRequest`: attempts `pulls.create`. On success returns the
response; on a 422 shows the informational already-exists notification (after
checking for an active window) and returns `undefined`; any other error is
rethrown with its JSON serialization in the message. -/
def createPullRequest (r : Remote) (pr : GitHubPullRequest) :
    Except Err (Option PullsCreateResponse) × List ApiCall :=
  let params := createParams pr
  match r.pullsCreate params with
  | .ok pullResponse => (.ok (some pullResponse), [.pullsCreate params])
  | .error e =>
    if e.status? = some 422 then
      if !r.activeWindow then
        (.error (.message "No active window"), [.pullsCreate params])
      else
        (.ok none,
         [.pullsCreate params, .notify alreadyExistsMsg .Warning])
    else
      (.error (.message ("Error: " ++ stringify e)), [.pullsCreate params])

/-- `Client.issuePullRequest`: the strictly sequential pipeline
branch-resolve → tree-build → commit-push → PR-create; any stage's thrown
error aborts the rest. -/
def issuePullRequest (r : Remote) (prcs : PullRequestWithChangesetCommit) :
    Except Err (Option PullsCreateResponse) × List ApiCall :=
  let pr := prcs.pullRequest
  let cs := prcs.changesetCommit
  let s1 := getCommitBranchSha r pr.sourceOwner pr.sourceRepo pr.destinationBranch pr.sourceBranch
  match s1.1 with
  | .error e => (.error e, s1.2)
  | .ok commitBranchSha =>
    let s2 := createTree r pr.sourceOwner pr.sourceRepo commitBranchSha cs.sourceFiles
    match s2.1 with
    | .error e => (.error e, s1.2 ++ s2.2)
    | .ok treeSha =>
      let s3 := pushCommit r pr.sourceOwner pr.sourceRepo pr.sourceBranch commitBranchSha
        treeSha cs.commitMetaData.authorName cs.commitMetaData.authorEmail
        cs.commitMetaData.commitMessage
      match s3.1 with
      | .error e => (.error e, s1.2 ++ s2.2 ++ s3.2)
      | .ok _ =>
        let s4 := createPullRequest r pr
        (s4.1, s1.2 ++ s2.2 ++ s3.2 ++ s4.2)

/-- The success notification text, carrying the PR URL. -/
def successMsg (url : String) : String := "😎 PR Created:\n" ++ url

/-- The `try` block of `issuePullRequestWithToken`: runs the pipeline, checks
for an active window, and shows the success notification when the result
carries a truthy `html_url`. -/
def tryBody (r : Remote) (prcs : PullRequestWithChangesetCommit) :
    Except Err Unit × List ApiCall :=
  let s := issuePullRequest r prcs
  match s.1 with
  | .error e => (.error e, s.2)
  | .ok result =>
    if !r.activeWindow then (.error (.message "No active window"), s.2)
    else
      match result with
      | some resp =>
        if resp.html_url != "" then
          (.ok (), s.2 ++ [.notify (successMsg resp.html_url) .Success])
        else (.ok (), s.2)
      | none => (.ok (), s.2)

/-- `issuePullRequestWithToken`: the exported entry point; every error thrown
inside the `try` block is rethrown as a new error whose message is the fixed
prefix followed by the caught error's JSON serialization. -/
def issuePullRequestWithToken (r : Remote) (prcs : PullRequestWithChangesetCommit) :
    Except Err Unit × List ApiCall :=
  match tryBody r prcs with
  | (.ok _, t) => (.ok (), t)
  | (.error e, t) =>
    (.error (.message ("Unhandled error in GH response\n" ++ stringify e)), t)

/-- Whether an action is a notification. -/
def isNotify : ApiCall → Bool
  | .notify _ _ => true
  | _ => false

/-- Whether an action is a notification of the given severity. -/
def isNotifyOf (nt : NotificationType) : ApiCall → Bool
  | .notify _ k => k == nt
  | _ => false

/-- The number of notifications of a given severity in a trace. -/
def countNotif (nt : NotificationType) (t : List ApiCall) : Nat :=
  t.countP (isNotifyOf nt)

/-- 1 when a result is a thrown error, 0 otherwise. -/
def errFlag {α : Type} : Except Err α → Nat
  | .error _ => 1
  | .ok _ => 0

/-- Whether an action is a branch-creation call. -/
def isCreateRef : ApiCall → Bool
  | .createRef _ _ _ _ => true
  | _ => false

/-- Whether an action is a ref update issued with `force = true`. -/
def forcedUpdate : ApiCall → Bool
  | .updateRef _ _ _ _ force => force
  | _ => false

/-- Modelled from the spec: the remote's tree composition is additive/overlay —
each submitted path maps to its submitted content (create-or-overwrite), and a
path not mentioned is inherited unchanged from the base tree. -/
def layerEntries (b : String → Option String) (entries : List GitCreateTreeParamsTree)
    (p : String) : Option String :=
  match entries.find? (fun en => en.path == p) with
  | some en => some en.content
  | none => b p

/-! ### Concrete sample environments and inputs, used by witnesses -/

/-- A remote on which every call succeeds with fixed, well-behaved responses. -/
def okRemote : Remote where
  getRef := fun _ _ _ => .ok ⟨⟨"basesha"⟩⟩
  createRef := fun _ _ _ sha => .ok ⟨⟨sha⟩⟩
  getCommit := fun _ _ sha => .ok ⟨sha⟩
  createCommit := fun _ _ _ _ _ _ _ _ => .ok ⟨"newcommitsha"⟩
  createTree := fun _ _ _ _ => .ok ⟨"treesha"⟩
  updateRef := fun _ _ _ sha _ => .ok ⟨⟨sha⟩⟩
  pullsCreate := fun _ => .ok ⟨"https://example.test/pull/1"⟩
  activeWindow := true
  now := "2019-01-01T00:00:00Z"

/-- Like `okRemote`, but `pulls.create` answers 422 (the PR already exists). -/
def conflictRemote : Remote :=
  { okRemote with pullsCreate := fun _ => .error (.http 422 "Validation Failed") }

/-- Like `okRemote`, but the non-force ref update is rejected (the branch
advanced concurrently). -/
def raceRemote : Remote :=
  { okRemote with updateRef := fun _ _ _ _ _ => .error (.http 422 "not a fast forward") }

/-- Like `okRemote`, but `pulls.create` fails with a server error. -/
def serverErrRemote : Remote :=
  { okRemote with pullsCreate := fun _ => .error (.http 500 "boom") }

/-- Like `okRemote`, but no active window is available. -/
def noWindowRemote : Remote :=
  { okRemote with activeWindow := false }

/-- Like `okRemote`, but the ref lookup of `feature-x` answers 404 while the
ref lookup of any other branch succeeds with tip `"S0"`. -/
def missingBranchRemote : Remote :=
  { okRemote with
    getRef := fun _ _ ref =>
      if ref = "heads/feature-x" then .error (.http 404 "Not Found")
      else .ok ⟨⟨"S0"⟩⟩ }

/-- A same-repository sample pull request. -/
def samplePr : GitHubPullRequest where
  sourceOwner := "alice"
  sourceRepo := "demo"
  destinationBranch := "main"
  sourceBranch := "feature-x"
  subject := "subject"
  description := "desc"
  destinationOwner := none
  destinationRepo := none
  maintainerCanModify := true
  draft := false

/-- `samplePr` with a differing destination owner (cross-fork case). -/
def crossPr : GitHubPullRequest := { samplePr with destinationOwner := some "bob" }

/-- A sample changeset commit with one file entry. -/
def sampleCs : ChangesetCommit where
  sourceFiles := [⟨"a.txt", "hello"⟩]
  commitMetaData := ⟨"Alice", "alice@example.test", "msg"⟩

/-- The sample publish input. -/
def samplePrcs : PullRequestWithChangesetCommit := ⟨samplePr, sampleCs⟩

/-! ### Per-stage trace lemmas (shared helpers) -/

/-- `createCommitBranch` emits no notification and no forced ref update. -/
theorem createCommitBranch_calls (r : Remote) (o rp bb cb : String) :
    ∀ c ∈ (createCommitBranch r o rp bb cb).2,
      isNotify c = false ∧ forcedUpdate c = false := by
  unfold createCommitBranch
  rcases h1 : r.getRef o rp ("heads/" ++ bb) with e | bref <;> simp only [h1]
  · simp [isNotify, forcedUpdate]
  · rcases h2 : r.createRef o rp ("refs/heads/" ++ cb) bref.object.sha with e | cref <;>
      simp [h2, isNotify, forcedUpdate]

/-- `getCommitBranchSha` emits no notification and no forced ref update. -/
theorem getCommitBranchSha_calls (r : Remote) (o rp bb cb : String) :
    ∀ c ∈ (getCommitBranchSha r o rp bb cb).2,
      isNotify c = false ∧ forcedUpdate c = false := by
  unfold getCommitBranchSha
  rcases h1 : r.getRef o rp ("heads/" ++ cb) with e | d <;> simp only [h1]
  · by_cases h4 : e.status? = some 404 <;> simp only [h4, if_pos, if_neg, not_false_iff]
    · intro c hc
      rcases List.mem_cons.mp hc with h | h
      · subst h; exact ⟨rfl, rfl⟩
      · exact createCommitBranch_calls r o rp bb cb c h
    · simp [isNotify, forcedUpdate]
  · simp [isNotify, forcedUpdate]

/-- `createTree` emits no notification and no forced ref update. -/
theorem createTree_calls (r : Remote) (o rp cbs : String) (fs : List SourceFile) :
    ∀ c ∈ (createTree r o rp cbs fs).2,
      isNotify c = false ∧ forcedUpdate c = false := by
  unfold createTree
  rcases h1 : r.createTree o rp (treeEntries fs) cbs with e | d <;>
    simp [h1, isNotify, forcedUpdate]

/-- `pushCommit` emits no notification, and its only ref update carries
`force = false`. -/
theorem pushCommit_calls (r : Remote) (o rp cb cbs ts an ae m : String) :
    ∀ c ∈ (pushCommit r o rp cb cbs ts an ae m).2,
      isNotify c = false ∧ forcedUpdate c = false := by
  unfold pushCommit
  rcases h1 : r.getCommit o rp cbs with e | pc <;> simp only [h1]
  · simp [isNotify, forcedUpdate]
  · rcases h2 : r.createCommit o rp m ts an ae r.now [pc.sha] with e | cc <;> simp only [h2]
    · simp [isNotify, forcedUpdate]
    · rcases h3 : r.updateRef o rp ("heads/" ++ cb) cc.sha false with e | u <;>
        simp [h3, isNotify, forcedUpdate]

/-- `createPullRequest` never issues a forced ref update. -/
theorem createPullRequest_force_free (r : Remote) (pr : GitHubPullRequest) :
    ∀ c ∈ (createPullRequest r pr).2, forcedUpdate c = false := by
  simp only [createPullRequest]
  rcases h1 : r.pullsCreate (createParams pr) with e | resp <;> simp only [h1]
  · by_cases h4 : e.status? = some 422 <;>
      simp only [h4, if_pos, if_neg, not_false_iff]
    · cases hw : r.activeWindow <;> simp [hw, forcedUpdate]
    · simp [forcedUpdate]
  · simp [forcedUpdate]

/-! ### Claims -/

/-- **C2**: whenever the re-read of the commit at the caller-supplied branch
tip sha `P` succeeds and (as the remote guarantees) returns a commit whose sha
is `P`, the commit-creation call issued by `pushCommit` carries tree `T` and
parent list exactly `[P]`. -/
theorem pushCommit_single_parent (r : Remote) (o rp cb P T an ae m : String)
    (c0 : GitCommit)
    (hget : r.getCommit o rp P = .ok c0) (hsha : c0.sha = P) :
    ∃ rest, (pushCommit r o rp cb P T an ae m).2 =
      .getCommit o rp P :: .createCommit o rp m T an ae r.now [P] :: rest := by
  unfold pushCommit
  simp only [hget, hsha]
  rcases h2 : r.createCommit o rp m T an ae r.now [P] with e | cc <;> simp only [h2]
  · exact ⟨[], rfl⟩
  · rcases h3 : r.updateRef o rp ("heads/" ++ cb) cc.sha false with e | u <;>
      simp only [h3] <;> exact ⟨_, rfl⟩

/-- Witness for **C2** at a concrete remote and concrete arguments. -/
theorem pushCommit_single_parent_witness :
    ∃ rest, (pushCommit okRemote "alice" "demo" "feature-x" "P0" "T0" "Alice" "a@b" "m").2 =
      .getCommit "alice" "demo" "P0" ::
      .createCommit "alice" "demo" "m" "T0" "Alice" "a@b" okRemote.now ["P0"] :: rest :=
  pushCommit_single_parent okRemote "alice" "demo" "feature-x" "P0" "T0" "Alice" "a@b" "m"
    ⟨"P0"⟩ rfl rfl

/-- **C3**: when the ref lookup of the target branch succeeds with tip sha
`s`, `getCommitBranchSha` returns `s` unchanged and performs no
branch-creation call. -/
theorem getCommitBranchSha_existing (r : Remote) (o rp bb cb s : String)
    (h : r.getRef o rp ("heads/" ++ cb) = .ok ⟨⟨s⟩⟩) :
    (getCommitBranchSha r o rp bb cb).1 = .ok s ∧
    ∀ c ∈ (getCommitBranchSha r o rp bb cb).2, isCreateRef c = false := by
  unfold getCommitBranchSha
  simp [h, isCreateRef]

/-- Witness for **C3** at a concrete remote. -/
theorem getCommitBranchSha_existing_witness :
    (getCommitBranchSha okRemote "alice" "demo" "main" "feature-x").1 = .ok "basesha" ∧
    ∀ c ∈ (getCommitBranchSha okRemote "alice" "demo" "main" "feature-x").2,
      isCreateRef c = false :=
  getCommitBranchSha_existing okRemote "alice" "demo" "main" "feature-x" "basesha" rfl

/-- **C4**: when the target-branch lookup fails with status 404 and the base
branch's tip is `S`, `getCommitBranchSha` creates the target branch pointing
at `S` and (the remote answering the creation with the requested sha) returns
`S`. -/
theorem getCommitBranchSha_creates (r : Remote) (o rp bb cb S : String)
    (e : Err) (nref : GitRef)
    (hmiss : r.getRef o rp ("heads/" ++ cb) = .error e)
    (h404 : e.status? = some 404)
    (hbase : r.getRef o rp ("heads/" ++ bb) = .ok ⟨⟨S⟩⟩)
    (hcreate : r.createRef o rp ("refs/heads/" ++ cb) S = .ok nref)
    (hwell : nref.object.sha = S) :
    (getCommitBranchSha r o rp bb cb).1 = .ok S ∧
    (getCommitBranchSha r o rp bb cb).2 =
      [.getRef o rp ("heads/" ++ cb),
       .getRef o rp ("heads/" ++ bb),
       .createRef o rp ("refs/heads/" ++ cb) S] := by
  unfold getCommitBranchSha createCommitBranch
  simp [hmiss, h404, hbase, hcreate, hwell]

/-- Witness for **C4** at a concrete remote where `feature-x` is missing and
`main` has tip `"S0"`. -/
theorem getCommitBranchSha_creates_witness :
    (getCommitBranchSha missingBranchRemote "alice" "demo" "main" "feature-x").1 = .ok "S0" ∧
    (getCommitBranchSha missingBranchRemote "alice" "demo" "main" "feature-x").2 =
      [.getRef "alice" "demo" "heads/feature-x",
       .getRef "alice" "demo" "heads/main",
       .createRef "alice" "demo" "refs/heads/feature-x" "S0"] :=
  getCommitBranchSha_creates missingBranchRemote "alice" "demo" "main" "feature-x" "S0"
    (.http 404 "Not Found") ⟨⟨"S0"⟩⟩ rfl rfl rfl rfl rfl

/-- **C5**: the pull request is always submitted with the parameters computed
by the destination defaulting: an unset (or equal-to-source) destination owner
yields `owner = sourceOwner` and an unprefixed base; a set, differing
destination owner is kept and the base is rewritten to
`sourceOwner:destinationBranch`; an unset destination repo defaults to the
source repo. -/
theorem createPullRequest_destination_defaulting (r : Remote) (pr : GitHubPullRequest) :
    (∃ rest, (createPullRequest r pr).2 = .pullsCreate (createParams pr) :: rest) ∧
    ((pr.destinationOwner = none ∨ pr.destinationOwner = some pr.sourceOwner) →
      (createParams pr).owner = pr.sourceOwner ∧
      (createParams pr).base = pr.destinationBranch) ∧
    (∀ d, pr.destinationOwner = some d → d ≠ "" → d ≠ pr.sourceOwner →
      (createParams pr).owner = d ∧
      (createParams pr).base = pr.sourceOwner ++ ":" ++ pr.destinationBranch) ∧
    (pr.destinationRepo = none → (createParams pr).repo = pr.sourceRepo) := by
  refine ⟨?_, ?_, ?_, ?_⟩
  · simp only [createPullRequest]
    rcases h1 : r.pullsCreate (createParams pr) with e | resp <;> simp only [h1]
    · by_cases h4 : e.status? = some 422 <;>
        simp only [h4, if_pos, if_neg, not_false_iff]
      · cases hw : r.activeWindow <;> simp [hw]
      · exact ⟨_, rfl⟩
    · exact ⟨_, rfl⟩
  · rintro (h | h) <;> simp [createParams, truthy, h]
  · rintro d hd hne hdiff
    simp [createParams, truthy, hd, hne, hdiff]
  · intro h
    simp [createParams, truthy, h]

/-- Witness for **C5**: the cross-fork case at a concrete spec, where the base
is prefixed with the source owner. -/
theorem createPullRequest_destination_defaulting_witness :
    (createParams crossPr).owner = "bob" ∧
    (createParams crossPr).base = "alice" ++ ":" ++ "main" :=
  (createPullRequest_destination_defaulting okRemote crossPr).2.2.1 "bob" rfl
    (by decide) (by decide)

/-- **C8**: a `pulls.create` failure whose status is not 422 makes
`createPullRequest` throw an error whose message embeds the serialized remote
error, in particular the raw error payload. -/
theorem createPullRequest_failed (r : Remote) (pr : GitHubPullRequest) (e : Err)
    (herr : r.pullsCreate (createParams pr) = .error e)
    (hnot : e.status? ≠ some 422) :
    (createPullRequest r pr).1 = .error (.message ("Error: " ++ stringify e)) ∧
    ∀ s p, e = .http s p →
      ∃ a b, "Error: " ++ stringify e = a ++ (p ++ b) := by
  constructor
  · simp only [createPullRequest]
    simp [herr, hnot]
  · rintro s p rfl
    exact ⟨"Error: " ++ ("\x7b\"status\":" ++ toString s ++ ",\"payload\":\""), "\"\x7d",
      by simp [stringify, String.append_assoc]⟩

/-- Witness for **C8** at a concrete remote answering 500. -/
theorem createPullRequest_failed_witness :
    (createPullRequest serverErrRemote samplePr).1 =
      .error (.message ("Error: " ++ stringify (.http 500 "boom"))) ∧
    ∀ s p, (Err.http 500 "boom") = Err.http s p →
      ∃ a b, "Error: " ++ stringify (Err.http 500 "boom") = a ++ (p ++ b) :=
  createPullRequest_failed serverErrRemote samplePr (.http 500 "boom") rfl (by decide)

/-- **C9**: `createTree` submits exactly one tree-creation call whose entries
are the given files as blob-type, mode-100644 entries with their paths and
contents, layered on the supplied base sha via `base_tree`; under the spec's
overlay semantics, submitted paths are create-or-overwrite and unmentioned
paths are inherited from the base tree. -/
theorem createTree_overlay (r : Remote) (o rp base : String) (fs : List SourceFile) :
    (createTree r o rp base fs).2 = [.createTree o rp (treeEntries fs) base] ∧
    (treeEntries fs).all (fun en => en.type == "blob" && en.mode == "100644") = true ∧
    (treeEntries fs).map (fun en => (en.path, en.content)) =
      fs.map (fun sf => (sf.path, sf.content)) ∧
    ∀ (b : String → Option String) (p : String),
      layerEntries b (treeEntries fs) p =
        (match fs.find? (fun sf => sf.path == p) with
         | some sf => some sf.content
         | none => b p) := by
  refine ⟨?_, ?_, ?_, ?_⟩
  · unfold createTree
    rcases h1 : r.createTree o rp (treeEntries fs) base with e | d <;> simp [h1]
  · simp [treeEntries, List.all_eq_true]
  · simp [treeEntries]
  · intro b p
    induction fs with
    | nil => simp [treeEntries, layerEntries]
    | cons sf tl ih =>
      by_cases hp : sf.path == p
      · simp [treeEntries, layerEntries, List.find?, hp]
      · simp only [treeEntries, layerEntries, List.map, List.find?, hp] at ih ⊢
        exact ih

/-- **C10**: every error propagated by `issuePullRequestWithToken` is a fresh
error whose message is the fixed wrapper prefix followed by the serialization
of the caught error; the inner error value itself is never propagated. -/
theorem issuePullRequestWithToken_wraps (r : Remote) (prcs : PullRequestWithChangesetCommit)
    (err : Err) (h : (issuePullRequestWithToken r prcs).1 = .error err) :
    ∃ e, err = .message ("Unhandled error in GH response\n" ++ stringify e) := by
  unfold issuePullRequestWithToken at h
  rcases htb : tryBody r prcs with ⟨res, t⟩
  rw [htb] at h
  cases res with
  | ok u => simp at h
  | error e => simp at h; exact ⟨e, h.symm⟩

/-- Witness for **C10**: the host-unavailable error is wrapped too. -/
theorem issuePullRequestWithToken_wraps_witness :
    ∃ e, Err.message
        ("Unhandled error in GH response\n" ++ stringify (.message "No active window")) =
      .message ("Unhandled error in GH response\n" ++ stringify e) :=
  issuePullRequestWithToken_wraps noWindowRemote samplePrcs
    (.message ("Unhandled error in GH response\n" ++ stringify (.message "No active window")))
    rfl

/-- **C1**: when every pipeline stage succeeds, `pulls.create` answers 422 and
an active window is available, the pull-request stage returns no URL, the
informational already-exists notification is shown, and the overall publish
call does not throw. -/
theorem alreadyExists_not_fatal (r : Remote) (prcs : PullRequestWithChangesetCommit)
    (s0 t0 : String) (c0 c1 : GitCommit) (u0 : GitRef) (e : Err)
    (h1 : r.getRef prcs.pullRequest.sourceOwner prcs.pullRequest.sourceRepo
      ("heads/" ++ prcs.pullRequest.sourceBranch) = .ok ⟨⟨s0⟩⟩)
    (h2 : r.createTree prcs.pullRequest.sourceOwner prcs.pullRequest.sourceRepo
      (treeEntries prcs.changesetCommit.sourceFiles) s0 = .ok ⟨t0⟩)
    (h3 : r.getCommit prcs.pullRequest.sourceOwner prcs.pullRequest.sourceRepo s0 = .ok c0)
    (h4 : r.createCommit prcs.pullRequest.sourceOwner prcs.pullRequest.sourceRepo
      prcs.changesetCommit.commitMetaData.commitMessage t0
      prcs.changesetCommit.commitMetaData.authorName
      prcs.changesetCommit.commitMetaData.authorEmail r.now [c0.sha] = .ok c1)
    (h5 : r.updateRef prcs.pullRequest.sourceOwner prcs.pullRequest.sourceRepo
      ("heads/" ++ prcs.pullRequest.sourceBranch) c1.sha false = .ok u0)
    (h6 : r.pullsCreate (createParams prcs.pullRequest) = .error e)
    (h7 : e.status? = some 422)
    (h8 : r.activeWindow = true) :
    (issuePullRequest r prcs).1 = .ok none ∧
    (issuePullRequestWithToken r prcs).1 = .ok () ∧
    .notify alreadyExistsMsg .Warning ∈ (issuePullRequestWithToken r prcs).2 := by
  have hpipe : issuePullRequest r prcs =
      ((createPullRequest r prcs.pullRequest).1,
        (getCommitBranchSha r prcs.pullRequest.sourceOwner prcs.pullRequest.sourceRepo
          prcs.pullRequest.destinationBranch prcs.pullRequest.sourceBranch).2 ++
        (createTree r prcs.pullRequest.sourceOwner prcs.pullRequest.sourceRepo s0
          prcs.changesetCommit.sourceFiles).2 ++
        (pushCommit r prcs.pullRequest.sourceOwner prcs.pullRequest.sourceRepo
          prcs.pullRequest.sourceBranch s0 t0 prcs.changesetCommit.commitMetaData.authorName
          prcs.changesetCommit.commitMetaData.authorEmail
          prcs.changesetCommit.commitMetaData.commitMessage).2 ++
        (createPullRequest r prcs.pullRequest).2) := by
    unfold issuePullRequest
    simp only [getCommitBranchSha, createTree, pushCommit, h1, h2, h3, h4, h5]
  have hcp : createPullRequest r prcs.pullRequest =
      (.ok none, [.pullsCreate (createParams prcs.pullRequest),
        .notify alreadyExistsMsg .Warning]) := by
    unfold createPullRequest
    simp [h6, h7, h8]
  have hip : (issuePullRequest r prcs).1 = .ok none := by rw [hpipe, hcp]
  have hbody : tryBody r prcs = (.ok (), (issuePullRequest r prcs).2) := by
    simp [tryBody, hip, h8]
  refine ⟨hip, ?_, ?_⟩
  · unfold issuePullRequestWithToken
    rw [hbody]
  · unfold issuePullRequestWithToken
    rw [hbody]
    simp only [hpipe, hcp]
    simp

/-- Witness for **C1** at a remote whose `pulls.create` answers 422. -/
theorem alreadyExists_not_fatal_witness :
    (issuePullRequest conflictRemote samplePrcs).1 = .ok none ∧
    (issuePullRequestWithToken conflictRemote samplePrcs).1 = .ok () ∧
    .notify alreadyExistsMsg .Warning ∈
      (issuePullRequestWithToken conflictRemote samplePrcs).2 :=
  alreadyExists_not_fatal conflictRemote samplePrcs "basesha" "treesha" ⟨"basesha"⟩
    ⟨"newcommitsha"⟩ ⟨⟨"newcommitsha"⟩⟩ (.http 422 "Validation Failed")
    rfl rfl rfl rfl rfl rfl rfl rfl

/-- The whole pipeline of `issuePullRequest` issues no forced ref update. -/
theorem issuePullRequest_force_free (r : Remote) (prcs : PullRequestWithChangesetCommit) :
    ∀ c ∈ (issuePullRequest r prcs).2, forcedUpdate c = false := by
  have g1 := getCommitBranchSha_calls r prcs.pullRequest.sourceOwner
    prcs.pullRequest.sourceRepo prcs.pullRequest.destinationBranch prcs.pullRequest.sourceBranch
  simp only [issuePullRequest]
  rcases hs1 : (getCommitBranchSha r prcs.pullRequest.sourceOwner prcs.pullRequest.sourceRepo
      prcs.pullRequest.destinationBranch prcs.pullRequest.sourceBranch).1 with e | cbs <;>
    simp only [hs1]
  · exact fun c hc => (g1 c hc).2
  · have g2 := createTree_calls r prcs.pullRequest.sourceOwner prcs.pullRequest.sourceRepo cbs
      prcs.changesetCommit.sourceFiles
    rcases hs2 : (createTree r prcs.pullRequest.sourceOwner prcs.pullRequest.sourceRepo cbs
        prcs.changesetCommit.sourceFiles).1 with e | ts <;> simp only [hs2]
    · intro c hc
      rcases List.mem_append.mp hc with h | h
      · exact (g1 c h).2
      · exact (g2 c h).2
    · have g3 := pushCommit_calls r prcs.pullRequest.sourceOwner prcs.pullRequest.sourceRepo
        prcs.pullRequest.sourceBranch cbs ts prcs.changesetCommit.commitMetaData.authorName
        prcs.changesetCommit.commitMetaData.authorEmail
        prcs.changesetCommit.commitMetaData.commitMessage
      rcases hs3 : (pushCommit r prcs.pullRequest.sourceOwner prcs.pullRequest.sourceRepo
          prcs.pullRequest.sourceBranch cbs ts prcs.changesetCommit.commitMetaData.authorName
          prcs.changesetCommit.commitMetaData.authorEmail
          prcs.changesetCommit.commitMetaData.commitMessage).1 with e | u <;> simp only [hs3]
      · intro c hc
        rcases List.mem_append.mp hc with h | h
        · rcases List.mem_append.mp h with h2 | h2
          · exact (g1 c h2).2
          · exact (g2 c h2).2
        · exact (g3 c h).2
      · have g4 := createPullRequest_force_free r prcs.pullRequest
        intro c hc
        rcases List.mem_append.mp hc with h | h
        · rcases List.mem_append.mp h with h2 | h2
          · rcases List.mem_append.mp h2 with h3 | h3
            · exact (g1 c h3).2
            · exact (g2 c h3).2
          · exact (g3 c h2).2
        · exact g4 c h

/-- The `try` block's trace issues no forced ref update either (it only ever
appends the success notification). -/
theorem tryBody_force_free (r : Remote) (prcs : PullRequestWithChangesetCommit) :
    ∀ c ∈ (tryBody r prcs).2, forcedUpdate c = false := by
  have g := issuePullRequest_force_free r prcs
  simp only [tryBody]
  rcases h : (issuePullRequest r prcs).1 with e | result <;> simp only [h]
  · exact g
  · cases hw : r.activeWindow <;> simp only [hw, Bool.not_true, Bool.not_false, if_true, if_false]
    · exact g
    · rcases result with _ | resp
      · exact g
      · cases hu : resp.html_url != "" <;> simp only [hu, if_true, if_false]
        · exact g
        · intro c hc
          rcases List.mem_append.mp hc with h2 | h2
          · exact g c h2
          · rcases List.mem_singleton.mp h2 with rfl
            rfl

/-- The entry point's trace is exactly the `try` block's trace. -/
theorem issuePullRequestWithToken_trace (r : Remote) (prcs : PullRequestWithChangesetCommit) :
    (issuePullRequestWithToken r prcs).2 = (tryBody r prcs).2 := by
  unfold issuePullRequestWithToken
  rcases h : tryBody r prcs with ⟨res, t⟩
  cases res <;> simp

/-- A trace with no notification has no notification of any severity. -/
theorem countNotif_of_no_notify (nt : NotificationType) (t : List ApiCall)
    (h : ∀ c ∈ t, isNotify c = false) : countNotif nt t = 0 := by
  unfold countNotif
  rw [List.countP_eq_zero]
  intro c hc
  have hcn := h c hc
  cases c <;> simp_all [isNotify, isNotifyOf]

/-- **C6**: every ref update of a publish call is issued with `force = false`;
and when the non-force update is rejected (the branch advanced between the
parent-read and the ref update), the failure propagates as the wrapped fatal
error and no notification — in particular no success notification — is
observable. -/
theorem nonforce_update_race :
    (∀ (r : Remote) (prcs : PullRequestWithChangesetCommit),
      ∀ c ∈ (issuePullRequestWithToken r prcs).2, forcedUpdate c = false) ∧
    (∀ (r : Remote) (prcs : PullRequestWithChangesetCommit) (s0 t0 : String)
      (c0 c1 : GitCommit) (e : Err),
      r.getRef prcs.pullRequest.sourceOwner prcs.pullRequest.sourceRepo
        ("heads/" ++ prcs.pullRequest.sourceBranch) = .ok ⟨⟨s0⟩⟩ →
      r.createTree prcs.pullRequest.sourceOwner prcs.pullRequest.sourceRepo
        (treeEntries prcs.changesetCommit.sourceFiles) s0 = .ok ⟨t0⟩ →
      r.getCommit prcs.pullRequest.sourceOwner prcs.pullRequest.sourceRepo s0 = .ok c0 →
      r.createCommit prcs.pullRequest.sourceOwner prcs.pullRequest.sourceRepo
        prcs.changesetCommit.commitMetaData.commitMessage t0
        prcs.changesetCommit.commitMetaData.authorName
        prcs.changesetCommit.commitMetaData.authorEmail r.now [c0.sha] = .ok c1 →
      r.updateRef prcs.pullRequest.sourceOwner prcs.pullRequest.sourceRepo
        ("heads/" ++ prcs.pullRequest.sourceBranch) c1.sha false = .error e →
      (issuePullRequestWithToken r prcs).1 =
        .error (.message ("Unhandled error in GH response\n" ++ stringify e)) ∧
      countNotif .Success (issuePullRequestWithToken r prcs).2 = 0 ∧
      countNotif .Warning (issuePullRequestWithToken r prcs).2 = 0) := by
  constructor
  · intro r prcs c hc
    rw [issuePullRequestWithToken_trace] at hc
    exact tryBody_force_free r prcs c hc
  · intro r prcs s0 t0 c0 c1 e h1 h2 h3 h4 h5
    have hpipe : issuePullRequest r prcs =
        (.error e,
          (getCommitBranchSha r prcs.pullRequest.sourceOwner prcs.pullRequest.sourceRepo
            prcs.pullRequest.destinationBranch prcs.pullRequest.sourceBranch).2 ++
          (createTree r prcs.pullRequest.sourceOwner prcs.pullRequest.sourceRepo s0
            prcs.changesetCommit.sourceFiles).2 ++
          (pushCommit r prcs.pullRequest.sourceOwner prcs.pullRequest.sourceRepo
            prcs.pullRequest.sourceBranch s0 t0 prcs.changesetCommit.commitMetaData.authorName
            prcs.changesetCommit.commitMetaData.authorEmail
            prcs.changesetCommit.commitMetaData.commitMessage).2) := by
      unfold issuePullRequest
      simp only [getCommitBranchSha, createTree, pushCommit, h1, h2, h3, h4, h5]
    have hip : (issuePullRequest r prcs).1 = .error e := by rw [hpipe]
    have hbody : tryBody r prcs = (.error e, (issuePullRequest r prcs).2) := by
      simp [tryBody, hip]
    have htok : issuePullRequestWithToken r prcs =
        (.error (.message ("Unhandled error in GH response\n" ++ stringify e)),
          (issuePullRequest r prcs).2) := by
      unfold issuePullRequestWithToken
      rw [hbody]
    have hnn : ∀ c ∈ (issuePullRequest r prcs).2, isNotify c = false := by
      rw [hpipe]
      intro c hc
      rcases List.mem_append.mp hc with h | h
      · rcases List.mem_append.mp h with h2 | h2
        · exact (getCommitBranchSha_calls r prcs.pullRequest.sourceOwner
            prcs.pullRequest.sourceRepo prcs.pullRequest.destinationBranch
            prcs.pullRequest.sourceBranch c h2).1
        · exact (createTree_calls r prcs.pullRequest.sourceOwner prcs.pullRequest.sourceRepo s0
            prcs.changesetCommit.sourceFiles c h2).1
      · exact (pushCommit_calls r prcs.pullRequest.sourceOwner prcs.pullRequest.sourceRepo
          prcs.pullRequest.sourceBranch s0 t0 prcs.changesetCommit.commitMetaData.authorName
          prcs.changesetCommit.commitMetaData.authorEmail
          prcs.changesetCommit.commitMetaData.commitMessage c h).1
    refine ⟨by rw [htok], ?_, ?_⟩ <;> rw [htok] <;>
      exact countNotif_of_no_notify _ _ hnn

/-- Witness for **C6** at a remote whose ref update is rejected. -/
theorem nonforce_update_race_witness :
    (issuePullRequestWithToken raceRemote samplePrcs).1 =
      .error (.message
        ("Unhandled error in GH response\n" ++ stringify (.http 422 "not a fast forward"))) ∧
    countNotif .Success (issuePullRequestWithToken raceRemote samplePrcs).2 = 0 ∧
    countNotif .Warning (issuePullRequestWithToken raceRemote samplePrcs).2 = 0 :=
  nonforce_update_race.2 raceRemote samplePrcs "basesha" "treesha" ⟨"basesha"⟩
    ⟨"newcommitsha"⟩ (.http 422 "not a fast forward") rfl rfl rfl rfl rfl

/-- `countNotif` distributes over trace concatenation. -/
theorem countNotif_append (nt : NotificationType) (t1 t2 : List ApiCall) :
    countNotif nt (t1 ++ t2) = countNotif nt t1 + countNotif nt t2 := by
  simp [countNotif, List.countP_append]

/-- Outcome summary of the pull-request stage: no success notification; the
already-exists warning exactly when the result is `ok none` (which requires an
active window); an `ok some` result is the remote's `pulls.create` response;
and every notification is a success or a warning. -/
theorem createPullRequest_summary (r : Remote) (pr : GitHubPullRequest) :
    countNotif .Success (createPullRequest r pr).2 = 0 ∧
    countNotif .Warning (createPullRequest r pr).2 =
      (match (createPullRequest r pr).1 with | .ok none => 1 | _ => 0) ∧
    ((createPullRequest r pr).1 = .ok none → r.activeWindow = true) ∧
    (∀ resp, (createPullRequest r pr).1 = .ok (some resp) →
      r.pullsCreate (createParams pr) = .ok resp) ∧
    (∀ c ∈ (createPullRequest r pr).2, isNotify c = true →
      isNotifyOf .Success c = true ∨ isNotifyOf .Warning c = true) := by
  simp only [createPullRequest]
  rcases h1 : r.pullsCreate (createParams pr) with e | resp <;> simp only [h1]
  · by_cases h4 : e.status? = some 422 <;> simp only [h4, if_pos, if_neg, not_false_iff]
    · cases hw : r.activeWindow <;>
        simp [hw, countNotif, List.countP_cons, isNotifyOf, isNotify]
    · simp [countNotif, List.countP_cons, isNotifyOf, isNotify]
  · simp [countNotif, List.countP_cons, isNotifyOf, isNotify, h1]

/-- Outcome summary of the whole pipeline, composed from the stage lemmas. -/
theorem issuePullRequest_summary (r : Remote) (prcs : PullRequestWithChangesetCommit) :
    countNotif .Success (issuePullRequest r prcs).2 = 0 ∧
    countNotif .Warning (issuePullRequest r prcs).2 =
      (match (issuePullRequest r prcs).1 with | .ok none => 1 | _ => 0) ∧
    ((issuePullRequest r prcs).1 = .ok none → r.activeWindow = true) ∧
    (∀ resp, (issuePullRequest r prcs).1 = .ok (some resp) →
      r.pullsCreate (createParams prcs.pullRequest) = .ok resp) ∧
    (∀ c ∈ (issuePullRequest r prcs).2, isNotify c = true →
      isNotifyOf .Success c = true ∨ isNotifyOf .Warning c = true) := by
  have g1 := getCommitBranchSha_calls r prcs.pullRequest.sourceOwner
    prcs.pullRequest.sourceRepo prcs.pullRequest.destinationBranch prcs.pullRequest.sourceBranch
  have z1 := fun nt => countNotif_of_no_notify nt _ (fun c hc => (g1 c hc).1)
  simp only [issuePullRequest]
  rcases hs1 : (getCommitBranchSha r prcs.pullRequest.sourceOwner prcs.pullRequest.sourceRepo
      prcs.pullRequest.destinationBranch prcs.pullRequest.sourceBranch).1 with e | cbs <;>
    simp only [hs1]
  · exact ⟨z1 _, by simp [z1 _], by simp, by simp,
      fun c hc hn => absurd ((g1 c hc).1) (by simp [hn])⟩
  · have g2 := createTree_calls r prcs.pullRequest.sourceOwner prcs.pullRequest.sourceRepo cbs
      prcs.changesetCommit.sourceFiles
    have z2 := fun nt => countNotif_of_no_notify nt _ (fun c hc => (g2 c hc).1)
    rcases hs2 : (createTree r prcs.pullRequest.sourceOwner prcs.pullRequest.sourceRepo cbs
        prcs.changesetCommit.sourceFiles).1 with e | ts <;> simp only [hs2]
    · refine ⟨?_, ?_, by simp, by simp, ?_⟩
      · simp [countNotif_append, z1 _, z2 _]
      · simp [countNotif_append, z1 _, z2 _]
      · intro c hc hn
        rcases List.mem_append.mp hc with h | h
        · exact absurd ((g1 c h).1) (by simp [hn])
        · exact absurd ((g2 c h).1) (by simp [hn])
    · have g3 := pushCommit_calls r prcs.pullRequest.sourceOwner prcs.pullRequest.sourceRepo
        prcs.pullRequest.sourceBranch cbs ts prcs.changesetCommit.commitMetaData.authorName
        prcs.changesetCommit.commitMetaData.authorEmail
        prcs.changesetCommit.commitMetaData.commitMessage
      have z3 := fun nt => countNotif_of_no_notify nt _ (fun c hc => (g3 c hc).1)
      rcases hs3 : (pushCommit r prcs.pullRequest.sourceOwner prcs.pullRequest.sourceRepo
          prcs.pullRequest.sourceBranch cbs ts prcs.changesetCommit.commitMetaData.authorName
          prcs.changesetCommit.commitMetaData.authorEmail
          prcs.changesetCommit.commitMetaData.commitMessage).1 with e | u <;> simp only [hs3]
      · refine ⟨?_, ?_, by simp, by simp, ?_⟩
        · simp [countNotif_append, z1 _, z2 _, z3 _]
        · simp [countNotif_append, z1 _, z2 _, z3 _]
        · intro c hc hn
          rcases List.mem_append.mp hc with h | h
          · rcases List.mem_append.mp h with h2 | h2
            · exact absurd ((g1 c h2).1) (by simp [hn])
            · exact absurd ((g2 c h2).1) (by simp [hn])
          · exact absurd ((g3 c h).1) (by simp [hn])
      · obtain ⟨c4S, c4W, c4win, c4resp, c4kinds⟩ := createPullRequest_summary r prcs.pullRequest
        refine ⟨?_, ?_, c4win, c4resp, ?_⟩
        · simp [countNotif_append, z1 _, z2 _, z3 _, c4S]
        · simp [countNotif_append, z1 _, z2 _, z3 _, c4W]
        · intro c hc hn
          rcases List.mem_append.mp hc with h | h
          · rcases List.mem_append.mp h with h2 | h2
            · rcases List.mem_append.mp h2 with h3 | h3
              · exact absurd ((g1 c h3).1) (by simp [hn])
              · exact absurd ((g2 c h3).1) (by simp [hn])
            · exact absurd ((g3 c h2).1) (by simp [hn])
          · exact c4kinds c h hn

/-- **C7**: per publish call, exactly one of {success notification, already-
exists warning notification, propagated error} is observable — given the
remote's guarantee that a successful `pulls.create` response carries a
non-empty URL — and every notification shown is one of those two kinds. -/
theorem exactly_one_outcome (r : Remote) (prcs : PullRequestWithChangesetCommit)
    (hurl : ∀ q resp, r.pullsCreate q = .ok resp → resp.html_url ≠ "") :
    countNotif .Success (issuePullRequestWithToken r prcs).2 +
      countNotif .Warning (issuePullRequestWithToken r prcs).2 +
      errFlag (issuePullRequestWithToken r prcs).1 = 1 ∧
    ∀ c ∈ (issuePullRequestWithToken r prcs).2, isNotify c = true →
      isNotifyOf .Success c = true ∨ isNotifyOf .Warning c = true := by
  obtain ⟨hS, hW, hwin, hresp, hkinds⟩ := issuePullRequest_summary r prcs
  have htr := issuePullRequestWithToken_trace r prcs
  have hflag : errFlag (issuePullRequestWithToken r prcs).1 = errFlag (tryBody r prcs).1 := by
    unfold issuePullRequestWithToken
    rcases h : tryBody r prcs with ⟨res, t⟩
    cases res <;> simp [errFlag]
  rw [htr, hflag]
  simp only [tryBody]
  rcases hres : (issuePullRequest r prcs).1 with e | result <;> simp only [hres] <;>
    rw [hres] at hW
  · simp only [errFlag, hS]
    simp at hW
    simp [hW]
    exact hkinds
  · cases hw : r.activeWindow <;>
      simp only [hw, Bool.not_true, Bool.not_false, if_true, if_false]
    · rcases result with _ | resp
      · exact absurd (hwin hres) (by simp [hw])
      · simp at hW
        simp [errFlag, hS, hW]
        exact hkinds
    · rcases result with _ | resp
      · simp at hW
        simp [errFlag, hS, hW]
        exact hkinds
      · have hu : resp.html_url ≠ "" := hurl _ resp (hresp resp hres)
        have hu2 : (resp.html_url != "") = true := by simpa using hu
        simp only [hu2, if_true]
        simp at hW
        constructor
        · have hS2 : List.countP (isNotifyOf .Success) (issuePullRequest r prcs).2 = 0 := hS
          have hW2 : List.countP (isNotifyOf .Warning) (issuePullRequest r prcs).2 = 0 := hW
          simp [errFlag, countNotif_append, countNotif, List.countP_cons, isNotifyOf, hS2, hW2]
        · intro c hc hn
          rcases List.mem_append.mp hc with h | h
          · exact hkinds c h hn
          · rcases List.mem_singleton.mp h with rfl
            left
            rfl

/-- Witness for **C7** at a remote where everything succeeds: the single
outcome is the success notification. -/
theorem exactly_one_outcome_witness :
    countNotif .Success (issuePullRequestWithToken okRemote samplePrcs).2 +
      countNotif .Warning (issuePullRequestWithToken okRemote samplePrcs).2 +
      errFlag (issuePullRequestWithToken okRemote samplePrcs).1 = 1 ∧
    ∀ c ∈ (issuePullRequestWithToken okRemote samplePrcs).2, isNotify c = true →
      isNotifyOf .Success c = true ∨ isNotifyOf .Warning c = true :=
  exactly_one_outcome okRemote samplePrcs
    (fun q resp h => by
      have : (⟨"https://example.test/pull/1"⟩ : PullsCreateResponse) = resp :=
        Except.ok.inj h
      rw [← this]
      decide)

end PullRequestCore
